import Mathlib

/-!
Verification development for the NBA referee-tracking data pipeline
(`npa.py`).  The Python functions are shallowly embedded as Lean
definitions: loosely typed JSON scalars become `PyPrim`, nullable fields
become `Option`, floating point probabilities become `Rat`, and code that
can raise becomes `Except`.  The definitions below are transcribed from
the source functions `parse_game_time`, `get_home_away_meta`,
`build_wp_df_from_summary`, `get_game_officials_from_summary`,
`build_athlete_lookup_from_summary`, `infer_foul_team`, `infer_foul_on`
and `extract_foul_rows`.
-/

namespace NRT

/-- A loosely typed JSON scalar as Python sees it: an integer or a string. -/
inductive PyPrim where
  | pInt : Int → PyPrim
  | pStr : String → PyPrim
deriving DecidableEq, Repr

/-- Python `str(v)` on a scalar value. -/
def primStr : PyPrim → String
  | .pInt n => toString n
  | .pStr s => s

/-- Python `str(v)` where `v` may be `None` (`str(None) = "None"`). -/
def pyStr : Option PyPrim → String
  | none => "None"
  | some p => primStr p

/-- Python truthiness of an optional string: `None` and `""` are falsy. -/
def truthyStr : Option String → Bool
  | none => false
  | some s => s != ""

/-- Python `a or b` on nullable strings (`None` and `""` are falsy). -/
def pyOrS (a b : Option String) : Option String :=
  match a with
  | some s => if s = "" then b else a
  | none => b

/-- Python `x or dflt` where `x` is a nullable string and `dflt` a string
literal; used for `... or ""` / `... or "Unknown"` chains. -/
def strOrLit (x : Option String) (dflt : String) : String :=
  match x with
  | some s => if s = "" then dflt else s
  | none => dflt

/-- Python `v or d` on a nullable number (`None` and `0.0` are falsy). -/
def pyNum (v : Option Rat) (d : Rat) : Rat :=
  match v with
  | none => d
  | some t => if t = 0 then d else t

/-- Python `l1 or l2` on nullable lists (`None` and `[]` are falsy). -/
def pyOrList {α : Type} (a b : Option (List α)) : Option (List α) :=
  match a with
  | some l => if l.isEmpty then b else a
  | none => b

/-- Lower-case a string into a character list (ASCII, like `str.lower`
on the ASCII team/description strings this pipeline handles). -/
def lowerL (s : String) : List Char :=
  s.data.map Char.toLower

/-- Whether `needle` occurs at the head of `hay`. -/
def headMatch : List Char → List Char → Bool
  | [], _ => true
  | _ :: _, [] => false
  | a :: as, b :: bs => a == b && headMatch as bs

/-- Python `needle in hay` substring test on character lists. -/
def hasSub (needle : List Char) : List Char → Bool
  | [] => headMatch needle []
  | c :: rest => headMatch needle (c :: rest) || hasSub needle rest

/-- Python `s.split(sep)` for a single-character separator. -/
def splitCh (sep : Char) : List Char → List (List Char)
  | [] => [[]]
  | c :: rest =>
    if c = sep then [] :: splitCh sep rest
    else
      match splitCh sep rest with
      | g :: gs => (c :: g) :: gs
      | [] => [[c]]

/-- Whitespace stripped by Python `int(str)`. -/
def isPyWS (c : Char) : Bool :=
  c == ' ' || c == '\t' || c == '\n' || c == '\r' || c == '\x0b' || c == '\x0c'

/-- Digit run of a Python integer literal: digits with single
underscores allowed between digits. `acc` is the value read so far. -/
def digitsGo (acc : Nat) : List Char → Option Nat
  | [] => some acc
  | '_' :: rest =>
    match rest with
    | d :: rest2 => if d.isDigit then digitsGo (acc * 10 + (d.toNat - 48)) rest2 else none
    | [] => none
  | d :: rest => if d.isDigit then digitsGo (acc * 10 + (d.toNat - 48)) rest else none

/-- Nonempty digit run (`digitpart` of the Python `int` grammar). -/
def digitPart : List Char → Option Nat
  | [] => none
  | d :: rest => if d.isDigit then digitsGo (d.toNat - 48) rest else none

/-- Python `int(s)` on a character list: optional surrounding whitespace,
optional sign, then a digit run; `none` models a raised `ValueError`. -/
def pyIntL (cs : List Char) : Option Int :=
  let cs := ((cs.dropWhile isPyWS).reverse.dropWhile isPyWS).reverse
  match cs with
  | '+' :: rest => (digitPart rest).map Int.ofNat
  | '-' :: rest => (digitPart rest).map (fun n => -(n : Int))
  | rest => (digitPart rest).map Int.ofNat

/-- Python `int(s)` on a string. -/
def pyIntS (s : String) : Option Int :=
  pyIntL s.data

/-- The ways the embedded pipeline can raise: the explicit
`ValueError("No win probability data ...")`, the `astype("int64")`
failure on a non-numeric play id, the `TypeError` from comparing a
string period with an integer in `parse_game_time`, and the
`int(...)` cast failure while shaping a foul record. -/
inductive BuildError where
  | noData
  | badPlayId
  | typeError
  | castError
deriving DecidableEq, Repr

/-- Parse of the `"MM:SS"` clock argument of `parse_game_time`:
`mins, secs = clock_str.split(":")` then `int(mins) * 60 + int(secs)`.
Any failure (non-string input, not exactly two fields, non-numeric
fields) is caught by the source's `except Exception` and yields `none`. -/
def parseClock : Option PyPrim → Option Int
  | some (.pStr s) =>
    (match splitCh ':' s.data with
     | [m, sec] =>
       match pyIntL m, pyIntL sec with
       | some a, some b => some (a * 60 + b)
       | _, _ => none
     | _ => none)
  | _ => none

/-- Embedding of `parse_game_time(period, clock_str)`.  Returns
`.ok none` where the Python returns `None`, `.ok (some e)` for an
elapsed-seconds result, and `.error .typeError` where the Python
raises comparing a non-numeric `period` with `4`. -/
def parse_game_time (period clock_str : Option PyPrim) : Except BuildError (Option Int) :=
  if period = none ∨ clock_str = none then .ok none
  else
    match parseClock clock_str with
    | none => .ok none
    | some remaining =>
      match period with
      | some (.pInt p) =>
        let v :=
          if p ≤ 4 then (p - 1) * (12 * 60) + ((12 * 60) - remaining)
          else (4 * (12 * 60) + (p - 5) * (5 * 60)) + ((5 * 60) - remaining)
        .ok (some v)
      | some (.pStr _) => .error .typeError
      | none => .ok none

/-- The `team` object attached to a play or competitor. -/
structure TeamObj where
  id : Option PyPrim
  abbreviation : Option String
  displayName : Option String
  shortDisplayName : Option String
  name : Option String
deriving DecidableEq, Repr

def emptyTeamObj : TeamObj := ⟨none, none, none, none, none⟩

/-- A play's `period` object (`{"number": ...}`). -/
structure PeriodObj where
  number : Option PyPrim
deriving DecidableEq, Repr

/-- A play's `clock` object (`{"displayValue": ...}`). -/
structure ClockObj where
  displayValue : Option PyPrim
deriving DecidableEq, Repr

/-- A play's `type` object (`{"text": ...}`). -/
structure TypeObj where
  text : Option String
deriving DecidableEq, Repr

/-- An `athlete` object inside a play participant or a box-score entry. -/
structure AthObj where
  id : Option PyPrim
  displayName : Option String
  shortName : Option String
  fullName : Option String
deriving DecidableEq, Repr

def emptyAthObj : AthObj := ⟨none, none, none, none⟩

/-- One entry of a play's `participants` list. -/
structure Participant where
  athlete : Option AthObj
deriving DecidableEq, Repr

/-- One record of the summary's `plays` list. -/
structure Play where
  id : Option PyPrim
  period : Option PeriodObj
  clock : Option ClockObj
  homeScore : Option Int
  awayScore : Option Int
  team : Option TeamObj
  text : Option String
  participants : Option (List Participant)
  type : Option TypeObj
  shortDescription : Option String
deriving DecidableEq, Repr

def emptyPlay : Play := ⟨none, none, none, none, none, none, none, none, none, none⟩

/-- One record of the summary's `winprobability` list.  The outer
`Option` of `tiePercentage` is key presence (the source reads it with
default `0.0`), the inner one is JSON null. -/
structure WpSample where
  playId : Option PyPrim
  homeWinPercentage : Option Rat
  tiePercentage : Option (Option Rat)
deriving DecidableEq, Repr

/-- One competitor of `header.competitions[0]`. -/
structure Competitor where
  team : Option TeamObj
  homeAway : Option String
deriving DecidableEq, Repr

/-- The `position`/`role` field of an official: a bare string or an
object carrying `displayName`/`name`. -/
inductive PosVal where
  | s : String → PosVal
  | d : Option String → Option String → PosVal
deriving DecidableEq, Repr

/-- One official record. -/
structure Official where
  displayName : Option String
  fullName : Option String
  name : Option String
  position : Option PosVal
  role : Option PosVal
deriving DecidableEq, Repr

/-- The `details` object of a competition. -/
structure DetailsObj where
  officials : Option (List Official)
deriving DecidableEq, Repr

/-- One competition of the summary header. -/
structure Competition where
  competitors : List Competitor
  officials : Option (List Official)
  details : Option DetailsObj
deriving DecidableEq, Repr

/-- The summary's `header` object. -/
structure Header where
  competitions : List Competition
deriving DecidableEq, Repr

def emptyHeader : Header := ⟨[]⟩

/-- The summary's `gameInfo` object. -/
structure GameInfo where
  officials : Option (List Official)
deriving DecidableEq, Repr

/-- One athlete entry of a box-score statistics block. -/
structure AthEntry where
  athlete : Option AthObj
deriving DecidableEq, Repr

/-- One statistics block of a box-score team block. -/
structure StatBlock where
  athletes : Option (List AthEntry)
deriving DecidableEq, Repr

/-- One team block of `boxscore.players`. -/
structure TeamBlock where
  team : Option TeamObj
  statistics : Option (List StatBlock)
deriving DecidableEq, Repr

/-- The summary's box score. -/
structure Box where
  officials : Option (List Official)
  players : Option (List TeamBlock)
deriving DecidableEq, Repr

def emptyBox : Box := ⟨none, none⟩

/-- A GameSummary document, restricted to the sub-trees the pipeline
reads. -/
structure Summary where
  header : Option Header
  gameInfo : Option GameInfo
  boxscore : Option Box
  boxScore : Option Box
  plays : List Play
  winprobability : Option (List WpSample)
deriving DecidableEq, Repr

/-- Python `data.get("boxscore") or data.get("boxScore")` (a present
object is truthy). -/
def pyOrBox (a b : Option Box) : Option Box :=
  match a with
  | some x => some x
  | none => b

/-- TeamMeta as built by `get_home_away_meta`. -/
structure TeamMeta where
  id : Option PyPrim
  abbr : Option String
  name : Option String
  short : Option String
deriving DecidableEq, Repr

/-- Embedding of `get_home_away_meta(data)`. -/
def get_home_away_meta (d : Summary) : Option TeamMeta × Option TeamMeta :=
  match (d.header.getD emptyHeader).competitions with
  | [] => (none, none)
  | comp :: _ =>
    comp.competitors.foldl
      (fun (acc : Option TeamMeta × Option TeamMeta) c =>
        let team := c.team.getD emptyTeamObj
        let meta : TeamMeta :=
          { id := team.id
            abbr := team.abbreviation
            name := pyOrS team.displayName (pyOrS team.shortDisplayName team.name)
            short := pyOrS team.shortDisplayName team.abbreviation }
        if c.homeAway = some "home" then (some meta, acc.2)
        else if c.homeAway = some "away" then (acc.1, some meta)
        else acc)
      (none, none)

/-- One row of the win-probability timeline before the elapsed/before
columns are added. -/
structure TimelineRow where
  play_id : String
  period : Option PyPrim
  clock : Option PyPrim
  home_score : Option Int
  away_score : Option Int
  home_win_prob : Option Rat
  away_win_prob : Option Rat
  description : Option String
  team_id : Option PyPrim
  team_abbr : Option String
  team_name : Option String
  primary_athlete_id : Option String
  participants_raw : List String
deriving DecidableEq, Repr

/-- The `plays_by_id` dictionary built by `{str(p.get("id")): p for p in
plays}`; for duplicate keys the last play wins, as in a Python dict
comprehension. -/
def playsById (plays : List Play) (pid : String) : Option Play :=
  (plays.filter (fun p => pyStr p.id = pid)).getLast?

/-- The per-sample row construction of `build_wp_df_from_summary`
(the body of its `for w in wp` loop). -/
def mkRow (plays : List Play) (w : WpSample) : TimelineRow :=
  let pid := pyStr w.playId
  let play := (playsById plays pid).getD emptyPlay
  let home_wp := w.homeWinPercentage
  let tie_wp := pyNum (w.tiePercentage.getD (some 0)) 0
  let away_wp :=
    if home_wp.isSome then some (1 - pyNum home_wp 0 - tie_wp) else none
  let team := play.team.getD emptyTeamObj
  let team_abbr := pyOrS team.abbreviation team.shortDisplayName
  let athlete_ids :=
    (play.participants.getD []).filterMap
      (fun p => ((p.athlete.getD emptyAthObj).id).map primStr)
  { play_id := pid
    period := (play.period.getD ⟨none⟩).number
    clock := (play.clock.getD ⟨none⟩).displayValue
    home_score := play.homeScore
    away_score := play.awayScore
    home_win_prob := home_wp
    away_win_prob := away_wp
    description := play.text
    team_id := team.id
    team_abbr := team_abbr
    team_name := pyOrS team.displayName
      (pyOrS team.shortDisplayName (pyOrS team.name team_abbr))
    primary_athlete_id := athlete_ids.head?
    participants_raw := athlete_ids }

/-- The numeric play id used as sort key (`play_id_int`); total on rows
whose id the builder has already checked to parse. -/
def playKey (r : TimelineRow) : Int :=
  (pyIntS r.play_id).getD 0

/-- Insert a row into a list sorted by `playKey`. -/
def insertRow (r : TimelineRow) : List TimelineRow → List TimelineRow
  | [] => [r]
  | x :: xs => if playKey r ≤ playKey x then r :: x :: xs else x :: insertRow r xs

/-- The `sort_values("play_id_int")` step as an insertion sort (the
claims only depend on the output being ordered by the key). -/
def sortRows : List TimelineRow → List TimelineRow
  | [] => []
  | r :: rs => insertRow r (sortRows rs)

/-- A timeline row with its `elapsed` column. -/
structure RowE extends TimelineRow where
  elapsed : Option Int
deriving DecidableEq, Repr

/-- The `df.apply(lambda r: parse_game_time(r["period"], r["clock"]))`
step; the first row on which `parse_game_time` raises aborts it. -/
def addElapsed : List TimelineRow → Except BuildError (List RowE)
  | [] => .ok []
  | r :: rs =>
    match parse_game_time r.period r.clock with
    | .error e => .error e
    | .ok e =>
      match addElapsed rs with
      | .error e2 => .error e2
      | .ok rest => .ok ({ toTimelineRow := r, elapsed := e } :: rest)

/-- A timeline row with the five `_before` columns added by `shift(1)`. -/
structure FullRow extends RowE where
  home_wp_before : Option Rat
  away_wp_before : Option Rat
  elapsed_before : Option Int
  period_before : Option PyPrim
  clock_before : Option PyPrim
deriving DecidableEq, Repr

/-- The `shift(1)` step: each row receives the previous row's current
values; the first row receives missing values. -/
def addBefore : Option RowE → List RowE → List FullRow
  | _, [] => []
  | prev, r :: rs =>
    { toRowE := r
      home_wp_before := prev.bind (·.home_win_prob)
      away_wp_before := prev.bind (·.away_win_prob)
      elapsed_before := prev.bind (·.elapsed)
      period_before := prev.bind (·.period)
      clock_before := prev.bind (·.clock) } :: addBefore (some r) rs

/-- Embedding of `build_wp_df_from_summary(event_id, data)` (the event
id only feeds the error message).  Mirrors the source's order of
effects: the `if not wp` check, the row loop, `astype("int64")`
(`.error .badPlayId` if any play id fails to parse), the sort, the
elapsed column, the `shift(1)` columns. -/
def build_wp_df_from_summary (d : Summary) : Except BuildError (List FullRow) :=
  match d.winprobability with
  | none => .error .noData
  | some [] => .error .noData
  | some wp =>
    let rows := wp.map (mkRow d.plays)
    if rows.all (fun r => (pyIntS r.play_id).isSome) then
      match addElapsed (sortRows rows) with
      | .error e => .error e
      | .ok rs => .ok (addBefore none rs)
    else .error .badPlayId

/-- Embedding of the official-name fallback chain
`o.get("displayName") or o.get("fullName") or o.get("name") or "Unknown"`. -/
def offNameOf (o : Official) : String :=
  strOrLit (pyOrS o.displayName (pyOrS o.fullName o.name)) "Unknown"

/-- Python `a or b` on nullable position values: a bare `""` string and
`None` are falsy (a present object is truthy). -/
def pyOrPos (a b : Option PosVal) : Option PosVal :=
  match a with
  | some (.s v) => if v = "" then b else a
  | some (.d _ _) => a
  | none => b

/-- Embedding of the official-position fallback:
`pos = o.get("position") or o.get("role") or {}` followed by the
dict unwrap `pos.get("displayName") or pos.get("name") or ""`. -/
def posOf (o : Official) : String :=
  match (pyOrPos o.position o.role).getD (.d none none) with
  | .s v => v
  | .d dn nm => strOrLit (pyOrS dn nm) ""

/-- Map a raw officials list to `(name, position)` pairs. -/
def offPairs (l : List Official) : List (String × String) :=
  l.map (fun o => (offNameOf o, posOf o))

/-- Embedding of `get_game_officials_from_summary(data)`: competition
officials first, then `gameInfo.officials`, then box-score officials,
first non-empty list wins. -/
def get_game_officials_from_summary (d : Summary) : List (String × String) :=
  let fromComp :=
    match (d.header.getD emptyHeader).competitions with
    | [] => []
    | comp :: _ =>
      offPairs ((pyOrList comp.officials ((comp.details.getD ⟨none⟩).officials)).getD [])
  if fromComp ≠ [] then fromComp
  else
    let fromInfo := offPairs (((d.gameInfo.getD ⟨none⟩).officials).getD [])
    if fromInfo ≠ [] then fromInfo
    else
      let box := (pyOrBox d.boxscore d.boxScore).getD emptyBox
      offPairs (box.officials.getD [])

/-- A value of the athlete lookup dictionary. -/
structure AthleteInfo where
  name : String
  team_id : Option PyPrim
  team_abbr : Option String
deriving DecidableEq, Repr

/-- Embedding of `build_athlete_lookup_from_summary(data)` as an
insertion-ordered association list. -/
def build_athlete_lookup_from_summary (d : Summary) : List (String × AthleteInfo) :=
  let box := (pyOrBox d.boxscore d.boxScore).getD emptyBox
  (box.players.getD []).foldl
    (fun acc tb =>
      let team := tb.team.getD emptyTeamObj
      let team_id := team.id
      let team_abbr := pyOrS team.abbreviation team.shortDisplayName
      (tb.statistics.getD []).foldl
        (fun acc2 st =>
          (st.athletes.getD []).foldl
            (fun acc3 ae =>
              let athlete := ae.athlete.getD emptyAthObj
              match athlete.id with
              | none => acc3
              | some aid =>
                acc3 ++ [(primStr aid,
                  { name := strOrLit
                      (pyOrS athlete.displayName (pyOrS athlete.shortName athlete.fullName))
                      "Unknown"
                    team_id := team_id
                    team_abbr := team_abbr })])
            acc2)
        acc)
    []

/-- Dictionary lookup on the athlete association list; a later insertion
of the same key overwrites an earlier one, as in a Python dict. -/
def lookupAth (l : List (String × AthleteInfo)) (k : String) : Option AthleteInfo :=
  ((l.filter (fun e => e.1 = k)).getLast?).map (·.2)

/-- First-`some`-wins combination of two optional results; models the
source's sequence of early `return` statements. -/
def firstSome {α : Type} : Option α → Option α → Option α
  | some v, _ => some v
  | none, b => b

/-- One side of the direct-abbreviation test of `infer_foul_team`:
`if meta and row.team_abbr == meta["abbr"]: return meta["abbr"]`. -/
def abbrHit (row_abbr : Option String) : Option TeamMeta → Option (Option String)
  | some m => if row_abbr = m.abbr then some m.abbr else none
  | none => none

/-- One side of the team-id test of `infer_foul_team`:
`if meta and team_id == str(meta.get("id")): return meta["abbr"]`. -/
def idHit (tid : String) : Option TeamMeta → Option (Option String)
  | some m => if tid = pyStr m.id then some m.abbr else none
  | none => none

/-- The `(meta["..."] or "").lower()` strings used by the text-search
fallback; an absent meta contributes empty strings. -/
def lowerBlank (o : Option String) : List Char :=
  match o with
  | some s => lowerL s
  | none => []

/-- The text-search condition of `infer_foul_team` for one side:
`any(s and s in desc for s in (abbr, short, name))`. -/
def metaDescHit (m? : Option TeamMeta) (desc : List Char) : Bool :=
  let ab := match m? with | some m => lowerBlank m.abbr | none => []
  let nm := match m? with | some m => lowerBlank m.name | none => []
  let sh := match m? with | some m => lowerBlank m.short | none => []
  (ab ≠ [] && hasSub ab desc) || (sh ≠ [] && hasSub sh desc) ||
    (nm ≠ [] && hasSub nm desc)

/-- Embedding of `infer_foul_team(row, home_meta, away_meta)`. -/
def infer_foul_team (row : TimelineRow) (hm am : Option TeamMeta) : Option String :=
  let desc := lowerL (strOrLit row.description "")
  let try1 :=
    if truthyStr row.team_abbr then
      firstSome (abbrHit row.team_abbr hm) (abbrHit row.team_abbr am)
    else none
  let try2 :=
    match row.team_id with
    | some v =>
      let tid := primStr v
      firstSome (idHit tid hm) (idHit tid am)
    | none => none
  let try3 :=
    if metaDescHit hm desc then
      some (match hm with | some m => m.abbr | none => some "HOME")
    else if metaDescHit am desc then
      some (match am with | some m => m.abbr | none => some "AWAY")
    else none
  (firstSome (firstSome try1 try2) try3).getD (some "Unknown")

/-- Embedding of `infer_foul_on(row, home_meta, away_meta, athlete_lookup)`. -/
def infer_foul_on (row : TimelineRow) (hm am : Option TeamMeta)
    (lk : List (String × AthleteInfo)) : Option String :=
  let ft := infer_foul_team row hm am
  match row.primary_athlete_id with
  | none => ft
  | some aid =>
    match lookupAth lk aid with
    | none => ft
    | some a =>
      let a_name := a.name
      let a_team := pyOrS a.team_abbr ft
      let ft2 :=
        if a_name ≠ "" ∧ truthyStr a_team = true ∧ ft = some "Unknown" then a_team
        else ft
      let label :=
        if truthyStr a_team then (match a_team with | some s => s | none => "None") ++ " - " ++ a_name
        else a_name
      if label ≠ "" then some label else ft2

/-- The foul filter of `extract_foul_rows`:
`df["description"].str.contains("foul", case=False, na=False)` — a
case-insensitive substring test, absent descriptions excluded. -/
def foulDesc : Option String → Bool
  | some s => hasSub "foul".data (lowerL s)
  | none => false

/-- Python `v or dflt` on a nullable scalar (`None`, `""` and `0` are
falsy); used for `clock = r.clock or ""`. -/
def pyOrP (v : Option PyPrim) (dflt : PyPrim) : PyPrim :=
  match v with
  | some (.pStr s) => if s = "" then dflt else .pStr s
  | some (.pInt n) => if n = 0 then dflt else .pInt n
  | none => dflt

/-- The `int(r.period) if pd.notna(r.period) else None` cast of
`extract_foul_rows`; a non-numeric string period raises `ValueError`. -/
def castPeriodVal : Option PyPrim → Except BuildError (Option Int)
  | none => .ok none
  | some (.pInt n) => .ok (some n)
  | some (.pStr s) =>
    match pyIntS s with
    | some n => .ok (some n)
    | none => .error .castError

/-- One exported foul record, shaped as in `extract_foul_rows`. -/
structure FoulRecord where
  Period : Option Int
  Clock : PyPrim
  Team : Option String
  Fouler : Option String
  Subtype : String
  Descriptor : String
  Official1 : String
  Official2 : String
  Official3 : String
  Home_Team : String
  Home_Score : PyPrim
  Away_Score : PyPrim
  WinProb_Current : Option Rat
  WinProb_Previous : Option Rat
  Clock_Previous_WP : Option PyPrim
deriving DecidableEq, Repr

/-- The `[:3]` slice padded with `""` up to three names. -/
def pad3 (l : List String) : String × String × String :=
  ((l.get? 0).getD "", (l.get? 1).getD "", (l.get? 2).getD "")

/-- Body of the per-foul loop of `extract_foul_rows`. -/
def mkFoulRecord (plays : List Play) (hm am : Option TeamMeta)
    (lk : List (String × AthleteInfo)) (names3 : String × String × String)
    (home_abbr : String) (r : FullRow) : Except BuildError FoulRecord :=
  match castPeriodVal r.period with
  | .error e => .error e
  | .ok period =>
    let team_abbr := infer_foul_team r.toTimelineRow hm am
    let fouler : Option String :=
      match r.primary_athlete_id with
      | none => none
      | some aid => (lookupAth lk aid).map (·.name)
    let play_obj := playsById plays r.play_id
    let subtype :=
      match play_obj with
      | some p => strOrLit ((p.type.getD ⟨none⟩).text) ""
      | none => ""
    let descriptor :=
      match play_obj with
      | some p => strOrLit p.shortDescription ""
      | none => ""
    .ok
      { Period := period
        Clock := pyOrP r.clock (.pStr "")
        Team := team_abbr
        Fouler := pyOrS fouler (infer_foul_on r.toTimelineRow hm am lk)
        Subtype := subtype
        Descriptor := descriptor
        Official1 := names3.1
        Official2 := names3.2.1
        Official3 := names3.2.2
        Home_Team := home_abbr
        Home_Score := match r.home_score with | some n => .pInt n | none => .pStr ""
        Away_Score := match r.away_score with | some n => .pInt n | none => .pStr ""
        WinProb_Current := r.home_win_prob
        WinProb_Previous := r.home_wp_before
        Clock_Previous_WP := r.clock_before }

/-- Error-propagating map of `mkFoulRecord` over the filtered rows. -/
def mapRecords (plays : List Play) (hm am : Option TeamMeta)
    (lk : List (String × AthleteInfo)) (names3 : String × String × String)
    (home_abbr : String) : List FullRow → Except BuildError (List FoulRecord)
  | [] => .ok []
  | r :: rs =>
    match mkFoulRecord plays hm am lk names3 home_abbr r with
    | .error e => .error e
    | .ok rec =>
      match mapRecords plays hm am lk names3 home_abbr rs with
      | .error e => .error e
      | .ok rest => .ok (rec :: rest)

/-- Embedding of `extract_foul_rows(event_id, data)`. -/
def extract_foul_rows (d : Summary) : Except BuildError (List FoulRecord) :=
  let (hm, am) := get_home_away_meta d
  let home_abbr := strOrLit (match hm with | some m => m.abbr | none => none) ""
  let lk := build_athlete_lookup_from_summary d
  let names3 := pad3 ((get_game_officials_from_summary d).map (·.1))
  match build_wp_df_from_summary d with
  | .error e => .error e
  | .ok df =>
    let fouls := df.filter (fun r => foulDesc r.description)
    mapRecords d.plays hm am lk names3 home_abbr fouls

instance {ε α : Type} [DecidableEq ε] [DecidableEq α] : DecidableEq (Except ε α) :=
  fun x y =>
    match x, y with
    | .ok a, .ok b =>
      if h : a = b then isTrue (by rw [h]) else isFalse (fun hh => by cases hh; exact h rfl)
    | .error a, .error b =>
      if h : a = b then isTrue (by rw [h]) else isFalse (fun hh => by cases hh; exact h rfl)
    | .ok _, .error _ => isFalse (fun hh => by cases hh)
    | .error _, .ok _ => isFalse (fun hh => by cases hh)

/-- Rows of a successful build (empty on error); lets closed statements
name the builder's output. -/
def okRows : Except BuildError (List FullRow) → List FullRow
  | .ok l => l
  | .error _ => []

/-- Records of a successful export (empty on error). -/
def okRecs : Except BuildError (List FoulRecord) → List FoulRecord
  | .ok l => l
  | .error _ => []

/-- Tie probability as the spec words it: the sample's tie percentage,
taken as `0` when absent. -/
def tieSpec (w : WpSample) : Rat :=
  match w.tiePercentage with
  | some (some t) => t
  | _ => 0

/-- Literal reading of claim C7's rule (a): the row's team abbreviation
equals the side's abbreviation (both present). -/
def specAbbrEq (row_abbr : Option String) : Option TeamMeta → Bool
  | some m =>
    match row_abbr with
    | some s => m.abbr == some s
    | none => false
  | none => false

/-- Literal reading of claim C7's rule (b): the row's team id equals the
side's id (both present). -/
def specIdEq (row_id : Option PyPrim) : Option TeamMeta → Bool
  | some m =>
    match row_id with
    | some v => m.id == some v
    | none => false
  | none => false

/-- Literal reading of claim C7's rule (c): a case-insensitive substring
search of the side's abbreviation, short name, or full name within the
description text. -/
def specTextHit (m? : Option TeamMeta) (desc : List Char) : Bool :=
  match m? with
  | none => false
  | some m =>
    [m.abbr, m.short, m.name].any
      (fun f => match f with
        | some s => hasSub (lowerL s) desc
        | none => false)

/-- The side's abbreviation as the resolver's result value. -/
def metaAbbr : Option TeamMeta → Option String
  | some m => m.abbr
  | none => none

/-- Team resolver as claim C7 literally words it: rule (a) on both
sides, then rule (b), then rule (c), else `"Unknown"`. -/
def resolve_team_spec (row : TimelineRow) (hm am : Option TeamMeta) : Option String :=
  let desc := lowerL (strOrLit row.description "")
  if specAbbrEq row.team_abbr hm then metaAbbr hm
  else if specAbbrEq row.team_abbr am then metaAbbr am
  else if specIdEq row.team_id hm then metaAbbr hm
  else if specIdEq row.team_id am then metaAbbr am
  else if specTextHit hm desc then metaAbbr hm
  else if specTextHit am desc then metaAbbr am
  else some "Unknown"

/-- Rule (a) as amended: it applies only when the row's team
abbreviation is a non-empty string. -/
def amendAbbrEq (row_abbr : Option String) : Option TeamMeta → Bool
  | some m =>
    match row_abbr with
    | some s => s != "" && m.abbr == some s
    | none => false
  | none => false

/-- Rule (b) as amended: the string rendering of the row's team id
(decimal for numbers) is compared with the string rendering of the
side's id, an absent side id rendering as `"None"`. -/
def amendIdEq (row_id : Option PyPrim) : Option TeamMeta → Bool
  | some m =>
    match row_id with
    | some v => primStr v == pyStr m.id
    | none => false
  | none => false

/-- Rule (c) as amended: only non-empty lowered search strings count. -/
def amendTextHit (m? : Option TeamMeta) (desc : List Char) : Bool :=
  match m? with
  | none => false
  | some m =>
    [m.abbr, m.short, m.name].any
      (fun f => match f with
        | some s => lowerL s ≠ [] && hasSub (lowerL s) desc
        | none => false)

/-- Team resolver as the amended claim words it: the same first-match
order with the amended rules. -/
def resolve_team_amended (row : TimelineRow) (hm am : Option TeamMeta) : Option String :=
  let desc := lowerL (strOrLit row.description "")
  if amendAbbrEq row.team_abbr hm then metaAbbr hm
  else if amendAbbrEq row.team_abbr am then metaAbbr am
  else if amendIdEq row.team_id hm then metaAbbr hm
  else if amendIdEq row.team_id am then metaAbbr am
  else if amendTextHit hm desc then metaAbbr hm
  else if amendTextHit am desc then metaAbbr am
  else some "Unknown"

/-- Whether an `Except` carries a result rather than a raised error. -/
def exceptOk {ε α : Type} : Except ε α → Bool
  | .ok _ => true
  | .error _ => false

theorem parse_game_time_error_eq :
    ∀ {p c : Option PyPrim} {e : BuildError},
      parse_game_time p c = .error e → e = .typeError := by
  intro p c e h
  unfold parse_game_time at h
  split at h
  · cases h
  · split at h
    · cases h
    · split at h
      · cases h
      · cases h; rfl
      · cases h

theorem addElapsed_error_eq :
    ∀ {l : List TimelineRow} {e : BuildError},
      addElapsed l = .error e → e = .typeError := by
  intro l
  induction l with
  | nil => intro e h; cases h
  | cons r rs ih =>
    intro e h
    unfold addElapsed at h
    split at h
    · cases h; exact parse_game_time_error_eq (by assumption)
    · split at h
      · cases h; exact ih (by assumption)
      · cases h

theorem pyNum_some (h : Rat) : pyNum (some h) 0 = h := by
  show (if h = 0 then (0 : Rat) else h) = h
  split_ifs with h0
  · exact h0.symm
  · rfl

theorem tie_code_eq_spec (w : WpSample) :
    pyNum (w.tiePercentage.getD (some 0)) 0 = tieSpec w := by
  rcases htp : w.tiePercentage with _ | t?
  · simp [pyNum, tieSpec, htp]
  · rcases t? with _ | t
    · simp [pyNum, tieSpec, htp]
    · simp [tieSpec, htp, pyNum_some]

/-- C6: for every win-probability sample whose home win probability is
present, the computed away win probability equals `1 − home − tie`,
with the tie taken as `0` when the tie percentage is absent; when the
home win probability is absent, the away win probability is undefined. -/
theorem away_wp_formula :
    ∀ (plays : List Play) (w : WpSample),
      (∀ h : Rat, w.homeWinPercentage = some h →
        (mkRow plays w).away_win_prob = some (1 - h - tieSpec w)) ∧
      (w.homeWinPercentage = none → (mkRow plays w).away_win_prob = none) := by
  intro plays w
  constructor
  · intro h hh
    simp only [mkRow, hh, Option.isSome_some, if_true, pyNum_some, tie_code_eq_spec]
  · intro hh
    simp only [mkRow, hh, Option.isSome_none, Bool.false_eq_true, if_false]

def w6 : WpSample :=
  { playId := some (.pInt 1), homeWinPercentage := some (3 / 4),
    tiePercentage := some (some (1 / 8)) }

/-- Witness for C6 at a concrete sample. -/
theorem away_wp_formula_witness :
    (mkRow [] w6).away_win_prob = some (1 - 3 / 4 - tieSpec w6) :=
  (away_wp_formula [] w6).1 (3 / 4) rfl

/-- C4: for every period `p ≥ 1` and parsable `"MM:SS"` clock with
remaining seconds `r`, the converter returns
`(p−1)*720 + (720−r)` when `p ≤ 4` and `2880 + (p−5)*300 + (300−r)`
when `p ≥ 5`; in particular the five concrete instances hold. -/
theorem parse_game_time_formula :
    (∀ (p r : Int) (c : String), 1 ≤ p → parseClock (some (.pStr c)) = some r →
      parse_game_time (some (.pInt p)) (some (.pStr c)) =
        .ok (some (if p ≤ 4 then (p - 1) * 720 + (720 - r)
                   else 2880 + (p - 5) * 300 + (300 - r)))) ∧
    parse_game_time (some (.pInt 1)) (some (.pStr "12:00")) = .ok (some 0) ∧
    parse_game_time (some (.pInt 1)) (some (.pStr "00:00")) = .ok (some 720) ∧
    parse_game_time (some (.pInt 4)) (some (.pStr "00:00")) = .ok (some 2880) ∧
    parse_game_time (some (.pInt 5)) (some (.pStr "05:00")) = .ok (some 2880) ∧
    parse_game_time (some (.pInt 5)) (some (.pStr "00:00")) = .ok (some 3180) := by
  refine ⟨?_, rfl, rfl, rfl, rfl, rfl⟩
  intro p r c _ hc
  unfold parse_game_time
  rw [if_neg (by simp)]
  simp only [hc]
  simp only [Except.ok.injEq, Option.some.injEq]
  split_ifs <;> ring

/-- Witness for C4's general clause at period 6, clock `"02:30"`. -/
theorem parse_game_time_formula_witness :
    parse_game_time (some (.pInt 6)) (some (.pStr "02:30")) =
      .ok (some (if (6 : Int) ≤ 4 then ((6 : Int) - 1) * 720 + (720 - 150)
                 else 2880 + ((6 : Int) - 5) * 300 + (300 - 150))) :=
  parse_game_time_formula.1 6 150 "02:30" (by norm_num) rfl

/-- C5 counterexample: a present non-numeric (string) period raises a
`TypeError` once the clock parses, so the converter does not return a
value on every input. -/
theorem parse_game_time_string_period_raises :
    parse_game_time (some (.pStr "2")) (some (.pStr "10:00")) = .error .typeError := rfl

/-- C5 as amended: for every missing or integer period and every clock
input (missing, malformed, or non-string), the converter returns a
value (elapsed seconds or the unknown value) without raising. -/
theorem parse_game_time_total_on_numeric_period :
    ∀ (period clock_str : Option PyPrim),
      (∀ s, period ≠ some (.pStr s)) →
      exceptOk (parse_game_time period clock_str) = true := by
  intro p c h
  unfold parse_game_time
  split
  · rfl
  · cases hc : parseClock c with
    | none => rfl
    | some r =>
      rcases p with _ | pv
      · rfl
      · cases pv with
        | pInt n => rfl
        | pStr s => exact absurd rfl (h s)

/-- Witness for the amended C5 at a concrete numeric period. -/
theorem parse_game_time_total_witness :
    exceptOk (parse_game_time (some (.pInt 7)) (some (.pStr "03:15"))) = true :=
  parse_game_time_total_on_numeric_period (some (.pInt 7)) (some (.pStr "03:15"))
    (fun s => by simp)

theorem build_cons (d : Summary) (w0 : WpSample) (ws : List WpSample)
    (hwp : d.winprobability = some (w0 :: ws)) :
    build_wp_df_from_summary d =
      (if (((w0 :: ws).map (mkRow d.plays)).all
            (fun r => (pyIntS r.play_id).isSome)) = true then
         match addElapsed (sortRows ((w0 :: ws).map (mkRow d.plays))) with
         | .error e => .error e
         | .ok rs => .ok (addBefore none rs)
       else .error .badPlayId) := by
  unfold build_wp_df_from_summary
  rw [hwp]

/-- C3: the builder fails with the "no data" error exactly when the
win-probability list is absent or empty, and a sample whose play id
matches no play yields a row whose play-derived fields are all absent. -/
theorem build_noData_iff_missing_play_defaults :
    ∀ (d : Summary) (plays : List Play) (w : WpSample),
      (build_wp_df_from_summary d = .error .noData ↔
        (d.winprobability = none ∨ d.winprobability = some [])) ∧
      ((∀ p ∈ plays, pyStr p.id ≠ pyStr w.playId) →
        (mkRow plays w).period = none ∧ (mkRow plays w).clock = none ∧
        (mkRow plays w).home_score = none ∧ (mkRow plays w).away_score = none ∧
        (mkRow plays w).description = none ∧ (mkRow plays w).team_id = none ∧
        (mkRow plays w).team_abbr = none ∧ (mkRow plays w).team_name = none ∧
        (mkRow plays w).primary_athlete_id = none ∧
        (mkRow plays w).participants_raw = []) := by
  intro d plays w
  constructor
  · constructor
    · intro h
      rcases hwp : d.winprobability with _ | wp
      · exact Or.inl rfl
      · cases wp with
        | nil => exact Or.inr rfl
        | cons w0 ws =>
          exfalso
          rw [build_cons d w0 ws hwp] at h
          split at h
          · split at h
            · rename_i e he
              injection h with h2
              rw [addElapsed_error_eq he] at h2
              exact BuildError.noConfusion h2
            · simp at h
          · simp at h
    · intro h
      rcases h with h | h <;> rw [build_wp_df_from_summary, h]
  · intro hno
    have hfil : playsById plays (pyStr w.playId) = none := by
      unfold playsById
      rw [List.filter_eq_nil_iff.mpr]
      · rfl
      · intro p hp
        simp only [decide_eq_true_eq]
        exact fun he => hno p hp he
    simp [mkRow, hfil, emptyPlay, pyOrS, emptyTeamObj]

def d3 : Summary :=
  { header := none, gameInfo := none, boxscore := none, boxScore := none,
    plays := [{ emptyPlay with id := some (.pInt 2) }],
    winprobability := some [{ playId := some (.pInt 1), homeWinPercentage := none,
                              tiePercentage := none }] }

def w3 : WpSample :=
  { playId := some (.pInt 1), homeWinPercentage := none, tiePercentage := none }

/-- Witness for C3 at a concrete summary whose only sample's play id
matches no play. -/
theorem build_noData_iff_missing_play_defaults_witness :
    ((build_wp_df_from_summary d3 = .error .noData ↔
        (d3.winprobability = none ∨ d3.winprobability = some [])) ∧
      ((mkRow d3.plays w3).period = none ∧ (mkRow d3.plays w3).clock = none ∧
        (mkRow d3.plays w3).home_score = none ∧ (mkRow d3.plays w3).away_score = none ∧
        (mkRow d3.plays w3).description = none ∧ (mkRow d3.plays w3).team_id = none ∧
        (mkRow d3.plays w3).team_abbr = none ∧ (mkRow d3.plays w3).team_name = none ∧
        (mkRow d3.plays w3).primary_athlete_id = none ∧
        (mkRow d3.plays w3).participants_raw = [])) :=
  ⟨(build_noData_iff_missing_play_defaults d3 d3.plays w3).1,
   (build_noData_iff_missing_play_defaults d3 d3.plays w3).2 (by decide)⟩

/-- C9: the builder has the unstated precondition that every sample's
play id, converted to a string, parses as an integer: if any sample's
playId is missing or non-numeric, the int cast used for sorting raises. -/
theorem build_badPlayId_on_nonnumeric :
    ∀ (d : Summary) (wp : List WpSample),
      d.winprobability = some wp → wp ≠ [] →
      (∃ w ∈ wp, pyIntS (pyStr w.playId) = none) →
      build_wp_df_from_summary d = .error .badPlayId := by
  intro d wp hwp hne hex
  cases wp with
  | nil => exact absurd rfl hne
  | cons w0 ws =>
    have hnall :
        ¬ ((((w0 :: ws).map (mkRow d.plays)).all
            (fun r => (pyIntS r.play_id).isSome)) = true) := by
      intro hall
      rw [List.all_eq_true] at hall
      rcases hex with ⟨w, hin, hnone⟩
      have hw := hall (mkRow d.plays w) (List.mem_map_of_mem _ hin)
      rw [show (mkRow d.plays w).play_id = pyStr w.playId from rfl, hnone] at hw
      simp at hw
    rw [build_cons d w0 ws hwp, if_neg hnall]

def d9 : Summary :=
  { header := none, gameInfo := none, boxscore := none, boxScore := none,
    plays := [],
    winprobability := some [{ playId := none, homeWinPercentage := none,
                              tiePercentage := none }] }

/-- Witness for C9: a sample with a missing playId (rendered `"None"`)
makes the builder raise the int-cast error. -/
theorem build_badPlayId_on_nonnumeric_witness :
    build_wp_df_from_summary d9 = .error .badPlayId :=
  build_badPlayId_on_nonnumeric d9
    [{ playId := none, homeWinPercentage := none, tiePercentage := none }]
    rfl (by simp) ⟨_, List.mem_singleton.mpr rfl, rfl⟩

theorem addElapsed_ids :
    ∀ {l : List TimelineRow} {l' : List RowE},
      addElapsed l = .ok l' → l'.map (·.toTimelineRow) = l := by
  intro l
  induction l with
  | nil => intro l' h; cases h; rfl
  | cons r rs ih =>
    intro l' h
    unfold addElapsed at h
    split at h
    · cases h
    · split at h
      · cases h
      · rename_i rest hrest
        cases h
        simp [ih hrest]

theorem addBefore_current (prev : Option RowE) (l : List RowE) :
    (addBefore prev l).map (·.toRowE) = l := by
  induction l generalizing prev with
  | nil => rfl
  | cons r rs ih => simp [addBefore, ih]

theorem mem_insertRow {y r : TimelineRow} :
    ∀ {l : List TimelineRow}, y ∈ insertRow r l → y = r ∨ y ∈ l := by
  intro l
  induction l with
  | nil => intro h; simp [insertRow] at h; exact Or.inl h
  | cons x xs ih =>
    intro h
    unfold insertRow at h
    split at h
    · rw [List.mem_cons] at h
      rcases h with h | h
      · exact Or.inl h
      · exact Or.inr h
    · rw [List.mem_cons] at h
      rcases h with h | h
      · exact Or.inr (by simp [h])
      · rcases ih h with h2 | h2
        · exact Or.inl h2
        · exact Or.inr (by simp [h2])

theorem insertRow_sorted {r : TimelineRow} :
    ∀ {l : List TimelineRow},
      List.Pairwise (fun a b => playKey a ≤ playKey b) l →
      List.Pairwise (fun a b => playKey a ≤ playKey b) (insertRow r l) := by
  intro l
  induction l with
  | nil => intro _; simp [insertRow]
  | cons x xs ih =>
    intro h
    rcases List.pairwise_cons.mp h with ⟨hx, hxs⟩
    unfold insertRow
    split
    · rename_i hle
      refine List.pairwise_cons.mpr ⟨?_, List.pairwise_cons.mpr ⟨hx, hxs⟩⟩
      intro y hy
      rw [List.mem_cons] at hy
      rcases hy with hy | hy
      · exact hy ▸ hle
      · exact le_trans hle (hx y hy)
    · rename_i hgt
      refine List.pairwise_cons.mpr ⟨?_, ih hxs⟩
      intro y hy
      rcases mem_insertRow hy with h2 | h2
      · subst h2; exact le_of_not_le hgt
      · exact hx y h2

theorem sortRows_sorted (l : List TimelineRow) :
    List.Pairwise (fun a b => playKey a ≤ playKey b) (sortRows l) := by
  induction l with
  | nil => simp [sortRows]
  | cons r rs ih => exact insertRow_sorted ih

theorem build_ok_shape :
    ∀ {d : Summary} {rows : List FullRow},
      build_wp_df_from_summary d = .ok rows →
      ∃ w0 ws rs, d.winprobability = some (w0 :: ws) ∧
        addElapsed (sortRows ((w0 :: ws).map (mkRow d.plays))) = .ok rs ∧
        rows = addBefore none rs := by
  intro d rows h
  rcases hwp : d.winprobability with _ | wp
  · rw [build_wp_df_from_summary, hwp] at h; cases h
  · cases wp with
    | nil => rw [build_wp_df_from_summary, hwp] at h; cases h
    | cons w0 ws =>
      rw [build_cons d w0 ws hwp] at h
      split at h
      · split at h
        · cases h
        · rename_i rs hrs
          cases h
          exact ⟨w0, ws, rs, rfl, hrs, rfl⟩
      · cases h

/-- The numeric play id of a finished row. -/
def fullKey (f : FullRow) : Int := playKey f.toTimelineRow

/-- C1 as amended: for every accepted summary the output rows are
ordered non-decreasing by numeric play id (rows may share a play id
when the input holds duplicate playId samples). -/
theorem build_rows_nondecreasing :
    ∀ (d : Summary) (rows : List FullRow),
      build_wp_df_from_summary d = .ok rows →
      List.Pairwise (fun a b => fullKey a ≤ fullKey b) rows := by
  intro d rows h
  obtain ⟨w0, ws, rs, _, hrs, hrows⟩ := build_ok_shape h
  have h1 : rs.map (·.toTimelineRow) = sortRows ((w0 :: ws).map (mkRow d.plays)) :=
    addElapsed_ids hrs
  have h2 : rows.map (·.toRowE) = rs := by rw [hrows]; exact addBefore_current none rs
  have h3 : rows.map (fun f => f.toRowE.toTimelineRow) =
      sortRows ((w0 :: ws).map (mkRow d.plays)) := by
    rw [← h1, ← h2, List.map_map]
    rfl
  have hp := h3 ▸ sortRows_sorted ((w0 :: ws).map (mkRow d.plays))
  have hfin := List.pairwise_map.mp hp
  simpa [fullKey] using hfin

def d1 : Summary :=
  { header := none, gameInfo := none, boxscore := none, boxScore := none,
    plays := [],
    winprobability := some
      [{ playId := some (.pInt 1), homeWinPercentage := none, tiePercentage := none },
       { playId := some (.pInt 1), homeWinPercentage := none, tiePercentage := none }] }

/-- C1 counterexample: an accepted summary with two samples sharing
playId 1 yields two output rows with the same numeric play id, so the
output is not strictly increasing. -/
theorem build_rows_not_strictly_increasing :
    exceptOk (build_wp_df_from_summary d1) = true ∧
    (okRows (build_wp_df_from_summary d1)).map fullKey = [1, 1] ∧
    ¬ List.Pairwise (fun a b => fullKey a < fullKey b)
        (okRows (build_wp_df_from_summary d1)) := by
  refine ⟨rfl, rfl, ?_⟩
  intro h
  have hm : List.Pairwise (fun a b : Int => a < b)
      ((okRows (build_wp_df_from_summary d1)).map fullKey) := by
    rw [List.pairwise_map]
    exact h
  rw [show (okRows (build_wp_df_from_summary d1)).map fullKey = [1, 1] from rfl] at hm
  exact absurd ((List.pairwise_cons.mp hm).1 1 (by simp)) (by omega)

/-- Witness for the amended C1 at a concrete accepted summary. -/
theorem build_rows_nondecreasing_witness :
    List.Pairwise (fun a b => fullKey a ≤ fullKey b)
      (okRows (build_wp_df_from_summary d1)) :=
  build_rows_nondecreasing d1 (okRows (build_wp_df_from_summary d1)) rfl

/-- The tuple of a row's five `_before` fields. -/
def beforeFields (f : FullRow) :
    Option Rat × Option Rat × Option Int × Option PyPrim × Option PyPrim :=
  (f.home_wp_before, f.away_wp_before, f.elapsed_before, f.period_before, f.clock_before)

/-- The tuple of a row's five current-value fields shifted by
`shift(1)`: win probabilities, elapsed, period, clock. -/
def currentFields (e : RowE) :
    Option Rat × Option Rat × Option Int × Option PyPrim × Option PyPrim :=
  (e.home_win_prob, e.away_win_prob, e.elapsed, e.period, e.clock)

theorem addBefore_length (prev : Option RowE) (l : List RowE) :
    (addBefore prev l).length = l.length := by
  induction l generalizing prev with
  | nil => rfl
  | cons r rs ih => simp [addBefore, ih]

theorem addBefore_get_before :
    ∀ (l : List RowE) (prev : Option RowE) (i : Nat)
      (h1 : i + 1 < (addBefore prev l).length) (h2 : i < l.length),
      beforeFields ((addBefore prev l).get ⟨i + 1, h1⟩) = currentFields (l.get ⟨i, h2⟩) := by
  intro l
  induction l with
  | nil => intro prev i h1 h2; exact absurd h2 (Nat.not_lt_zero i)
  | cons r rs ih =>
    intro prev i h1 h2
    cases i with
    | zero =>
      cases rs with
      | nil => simp [addBefore] at h1
      | cons r2 rs2 => rfl
    | succ j =>
      exact ih (some r) j (by simp [addBefore] at h1; omega) (by simp at h2; omega)

theorem addBefore_get_current :
    ∀ (l : List RowE) (prev : Option RowE) (i : Nat)
      (h1 : i < (addBefore prev l).length) (h2 : i < l.length),
      ((addBefore prev l).get ⟨i, h1⟩).toRowE = l.get ⟨i, h2⟩ := by
  intro l
  induction l with
  | nil => intro prev i h1 h2; exact absurd h2 (Nat.not_lt_zero i)
  | cons r rs ih =>
    intro prev i h1 h2
    cases i with
    | zero => rfl
    | succ j =>
      exact ih (some r) j (by simp [addBefore] at h1; omega) (by simp at h2; omega)

theorem addBefore_get_zero :
    ∀ (l : List RowE) (h : 0 < (addBefore none l).length),
      beforeFields ((addBefore none l).get ⟨0, h⟩) = (none, none, none, none, none) := by
  intro l h
  cases l with
  | nil => simp [addBefore] at h
  | cons r rs => rfl

/-- C2: in the builder's output the five `_before` fields of the first
row are absent, and for every later row they equal the corresponding
current-value fields of the row at the immediately preceding position
of the sorted sequence. -/
theorem before_fields_shift :
    ∀ (d : Summary) (rows : List FullRow),
      build_wp_df_from_summary d = .ok rows →
      (∀ h0 : 0 < rows.length,
        beforeFields (rows.get ⟨0, h0⟩) = (none, none, none, none, none)) ∧
      (∀ (i : Nat) (h : i + 1 < rows.length),
        beforeFields (rows.get ⟨i + 1, h⟩) =
          currentFields ((rows.get ⟨i, Nat.lt_of_succ_lt h⟩).toRowE)) := by
  intro d rows hb
  obtain ⟨w0, ws, rs, _, hrs, hrows⟩ := build_ok_shape hb
  subst hrows
  constructor
  · intro h0
    exact addBefore_get_zero rs h0
  · intro i h
    have hlen := addBefore_length none rs
    have h2 : i < rs.length := by
      rw [hlen] at h
      omega
    calc beforeFields ((addBefore none rs).get ⟨i + 1, h⟩)
        = currentFields (rs.get ⟨i, h2⟩) := addBefore_get_before rs none i h h2
      _ = currentFields (((addBefore none rs).get ⟨i, Nat.lt_of_succ_lt h⟩).toRowE) := by
          rw [addBefore_get_current rs none i (Nat.lt_of_succ_lt h) h2]

def play2 : Play :=
  { id := some (.pInt 5), period := some ⟨some (.pInt 1)⟩,
    clock := some ⟨some (.pStr "11:30")⟩, homeScore := some 2, awayScore := some 0,
    team := none, text := some "Layup by A", participants := none,
    type := none, shortDescription := none }

def d2 : Summary :=
  { header := none, gameInfo := none, boxscore := none, boxScore := none,
    plays := [play2],
    winprobability := some
      [{ playId := some (.pInt 9), homeWinPercentage := none, tiePercentage := none },
       { playId := some (.pInt 5), homeWinPercentage := none, tiePercentage := none }] }

/-- Witness for C2 at a concrete two-sample summary. -/
theorem before_fields_shift_witness :
    (beforeFields ((okRows (build_wp_df_from_summary d2)).get ⟨0, by decide⟩) =
      (none, none, none, none, none)) ∧
    (beforeFields ((okRows (build_wp_df_from_summary d2)).get ⟨1, by decide⟩) =
      currentFields (((okRows (build_wp_df_from_summary d2)).get ⟨0, by decide⟩).toRowE)) :=
  ⟨(before_fields_shift d2 (okRows (build_wp_df_from_summary d2)) rfl).1 (by decide),
   (before_fields_shift d2 (okRows (build_wp_df_from_summary d2)) rfl).2 0 (by decide)⟩

theorem mapRecords_length :
    ∀ {plays : List Play} {hm am : Option TeamMeta} {lk : List (String × AthleteInfo)}
      {names3 : String × String × String} {home_abbr : String}
      {l : List FullRow} {recs : List FoulRecord},
      mapRecords plays hm am lk names3 home_abbr l = .ok recs →
      recs.length = l.length := by
  intro plays hm am lk names3 ha l
  induction l with
  | nil => intro recs h; cases h; rfl
  | cons r rs ih =>
    intro recs h
    unfold mapRecords at h
    split at h
    · cases h
    · split at h
      · cases h
      · rename_i rest hrest
        cases h
        simp [ih hrest]

/-- C8: the exporter yields exactly one record per timeline row whose
description contains "foul" as a case-insensitive substring, with no
other filtering: "Shooting foul by X" matches, "No foul" also matches,
and a row with an absent description yields no record. -/
theorem extract_one_record_per_foul_row :
    ∀ (d : Summary) (rows : List FullRow) (recs : List FoulRecord),
      build_wp_df_from_summary d = .ok rows →
      extract_foul_rows d = .ok recs →
      recs.length = (rows.filter (fun r => foulDesc r.description)).length ∧
      foulDesc (some "Shooting foul by X") = true ∧
      foulDesc (some "No foul") = true ∧
      foulDesc none = false := by
  intro d rows recs hb he
  refine ⟨?_, rfl, rfl, rfl⟩
  unfold extract_foul_rows at he
  rw [hb] at he
  exact mapRecords_length he

def play8 : Play :=
  { id := some (.pInt 1), period := some ⟨some (.pInt 2)⟩,
    clock := some ⟨some (.pStr "07:15")⟩, homeScore := some 10, awayScore := some 12,
    team := none, text := some "Shooting foul by X", participants := none,
    type := none, shortDescription := none }

def play8b : Play :=
  { id := some (.pInt 2), period := some ⟨some (.pInt 2)⟩,
    clock := some ⟨some (.pStr "07:02")⟩, homeScore := some 10, awayScore := some 12,
    team := none, text := some "Jump ball", participants := none,
    type := none, shortDescription := none }

def d8 : Summary :=
  { header := none, gameInfo := none, boxscore := none, boxScore := none,
    plays := [play8, play8b],
    winprobability := some
      [{ playId := some (.pInt 1), homeWinPercentage := none, tiePercentage := none },
       { playId := some (.pInt 2), homeWinPercentage := none, tiePercentage := none }] }

/-- Witness for C8 at a concrete summary with one foul row and one
non-foul row. -/
theorem extract_one_record_per_foul_row_witness :
    (okRecs (extract_foul_rows d8)).length =
      ((okRows (build_wp_df_from_summary d8)).filter
        (fun r => foulDesc r.description)).length ∧
    foulDesc (some "Shooting foul by X") = true ∧
    foulDesc (some "No foul") = true ∧
    foulDesc none = false :=
  extract_one_record_per_foul_row d8 (okRows (build_wp_df_from_summary d8))
    (okRecs (extract_foul_rows d8)) rfl rfl

theorem infer_foul_team_eq (row : TimelineRow) (hm am : Option TeamMeta) :
    infer_foul_team row hm am =
      (firstSome (firstSome
        (if truthyStr row.team_abbr then
           firstSome (abbrHit row.team_abbr hm) (abbrHit row.team_abbr am)
         else none)
        (match row.team_id with
         | some v => firstSome (idHit (primStr v) hm) (idHit (primStr v) am)
         | none => none))
        (if metaDescHit hm (lowerL (strOrLit row.description "")) then
           some (match hm with | some m => m.abbr | none => some "HOME")
         else if metaDescHit am (lowerL (strOrLit row.description "")) then
           some (match am with | some m => m.abbr | none => some "AWAY")
         else none)).getD (some "Unknown") := rfl

theorem firstSome_eq_some {α : Type} {a b : Option α} {v : α}
    (h : firstSome a b = some v) : a = some v ∨ (a = none ∧ b = some v) := by
  cases a with
  | none => exact Or.inr ⟨rfl, h⟩
  | some x => exact Or.inl h

theorem abbrHit_shape {a : Option String} {m? : Option TeamMeta} {v : Option String}
    (h : abbrHit a m? = some v) : ∃ m, m? = some m ∧ v = m.abbr := by
  cases m? with
  | none => cases h
  | some m =>
    by_cases hc : a = m.abbr
    · simp only [abbrHit, if_pos hc, Option.some.injEq] at h
      exact ⟨m, rfl, h.symm⟩
    · simp only [abbrHit, if_neg hc] at h
      cases h

theorem idHit_shape {t : String} {m? : Option TeamMeta} {v : Option String}
    (h : idHit t m? = some v) : ∃ m, m? = some m ∧ v = m.abbr := by
  cases m? with
  | none => cases h
  | some m =>
    by_cases hc : t = pyStr m.id
    · simp only [idHit, if_pos hc, Option.some.injEq] at h
      exact ⟨m, rfl, h.symm⟩
    · simp only [idHit, if_neg hc] at h
      cases h

/-- C10: the resolver only ever returns the home side's abbreviation,
the away side's abbreviation, or "Unknown"; the "HOME"/"AWAY" fallback
literals are unreachable because an absent side contributes only empty
search strings, which the non-empty guard rejects. -/
theorem infer_foul_team_range :
    ∀ (row : TimelineRow) (hm am : Option TeamMeta),
      (∃ m, hm = some m ∧ infer_foul_team row hm am = m.abbr) ∨
      (∃ m, am = some m ∧ infer_foul_team row hm am = m.abbr) ∨
      infer_foul_team row hm am = some "Unknown" := by
  intro row hm am
  rw [infer_foul_team_eq]
  cases h12 : firstSome
      (if truthyStr row.team_abbr then
         firstSome (abbrHit row.team_abbr hm) (abbrHit row.team_abbr am)
       else none)
      (match row.team_id with
       | some v => firstSome (idHit (primStr v) hm) (idHit (primStr v) am)
       | none => none) with
  | some v =>
    rcases firstSome_eq_some h12 with h1 | ⟨_, h2⟩
    · split at h1
      · rcases firstSome_eq_some h1 with ha | ⟨_, ha⟩
        · obtain ⟨m, hm2, hv⟩ := abbrHit_shape ha
          exact Or.inl ⟨m, hm2, by simp [firstSome, hv]⟩
        · obtain ⟨m, hm2, hv⟩ := abbrHit_shape ha
          exact Or.inr (Or.inl ⟨m, hm2, by simp [firstSome, hv]⟩)
      · cases h1
    · split at h2
      · rcases firstSome_eq_some h2 with ha | ⟨_, ha⟩
        · obtain ⟨m, hm2, hv⟩ := idHit_shape ha
          exact Or.inl ⟨m, hm2, by simp [firstSome, hv]⟩
        · obtain ⟨m, hm2, hv⟩ := idHit_shape ha
          exact Or.inr (Or.inl ⟨m, hm2, by simp [firstSome, hv]⟩)
      · cases h2
  | none =>
    by_cases h3 : metaDescHit hm (lowerL (strOrLit row.description "")) = true
    · rw [if_pos h3]
      cases hmm : hm with
      | none => rw [hmm] at h3; cases h3
      | some m => exact Or.inl ⟨m, rfl, by simp [firstSome, hmm]⟩
    · rw [if_neg h3]
      by_cases h4 : metaDescHit am (lowerL (strOrLit row.description "")) = true
      · rw [if_pos h4]
        cases hma : am with
        | none => rw [hma] at h4; cases h4
        | some m => exact Or.inr (Or.inl ⟨m, rfl, by simp [firstSome, hma]⟩)
      · rw [if_neg h4]
        exact Or.inr (Or.inr rfl)

def row7 : TimelineRow :=
  { play_id := "1", period := none, clock := none, home_score := none,
    away_score := none, home_win_prob := none, away_win_prob := none,
    description := none, team_id := none, team_abbr := some "", team_name := none,
    primary_athlete_id := none, participants_raw := [] }

def hm7 : Option TeamMeta := some { id := none, abbr := some "", name := none, short := none }

/-- C7 counterexample: a row whose team abbreviation is the empty
string, against a home side whose abbreviation is also the empty
string, matches rule (a) as the claim words it, but the code's truthy
guard skips the branch and the resolver returns "Unknown". -/
theorem resolve_spec_team_mismatch :
    resolve_team_spec row7 hm7 none = some "" ∧
    infer_foul_team row7 hm7 none = some "Unknown" ∧
    resolve_team_spec row7 hm7 none ≠ infer_foul_team row7 hm7 none :=
  ⟨rfl, rfl, by decide⟩

theorem chain6 (c1 c2 c3 c4 c5 c6 : Bool) (v1 v2 v3 v4 v5 v6 dflt : Option String) :
    (if c1 then v1 else if c2 then v2 else if c3 then v3 else if c4 then v4
     else if c5 then v5 else if c6 then v6 else dflt) =
    (firstSome (firstSome
      (if c1 then some v1 else if c2 then some v2 else none)
      (if c3 then some v3 else if c4 then some v4 else none))
      (if c5 then some v5 else if c6 then some v6 else none)).getD dflt := by
  cases c1 <;> cases c2 <;> cases c3 <;> cases c4 <;> cases c5 <;> cases c6 <;> rfl

theorem abbr_step (a : Option String) (hm am : Option TeamMeta) :
    (if amendAbbrEq a hm then some (metaAbbr hm)
     else if amendAbbrEq a am then some (metaAbbr am) else none) =
    (if truthyStr a then firstSome (abbrHit a hm) (abbrHit a am) else none) := by
  rcases a with _ | s
  · rcases hm with _ | m1 <;> rcases am with _ | m2 <;> rfl
  · by_cases hs : s = ""
    · subst hs
      rcases hm with _ | m1 <;> rcases am with _ | m2 <;>
        simp [amendAbbrEq, truthyStr]
    · rcases hm with _ | m1
      · rcases am with _ | m2
        · simp [amendAbbrEq, truthyStr, hs, firstSome, abbrHit]
        · by_cases h2 : m2.abbr = some s
          · simp [amendAbbrEq, truthyStr, hs, firstSome, abbrHit, metaAbbr, h2]
          · simp [amendAbbrEq, truthyStr, hs, firstSome, abbrHit, metaAbbr, h2,
                  show ¬((some s : Option String) = m2.abbr) from fun hh => h2 hh.symm]
      · rcases am with _ | m2
        · by_cases h1 : m1.abbr = some s
          · simp [amendAbbrEq, truthyStr, hs, firstSome, abbrHit, metaAbbr, h1]
          · simp [amendAbbrEq, truthyStr, hs, firstSome, abbrHit, metaAbbr, h1,
                  show ¬((some s : Option String) = m1.abbr) from fun hh => h1 hh.symm]
        · by_cases h1 : m1.abbr = some s
          · simp [amendAbbrEq, truthyStr, hs, firstSome, abbrHit, metaAbbr, h1]
          · by_cases h2 : m2.abbr = some s
            · simp [amendAbbrEq, truthyStr, hs, firstSome, abbrHit, metaAbbr, h1, h2,
                    show ¬((some s : Option String) = m1.abbr) from fun hh => h1 hh.symm]
            · simp [amendAbbrEq, truthyStr, hs, firstSome, abbrHit, metaAbbr, h1, h2,
                    show ¬((some s : Option String) = m1.abbr) from fun hh => h1 hh.symm,
                    show ¬((some s : Option String) = m2.abbr) from fun hh => h2 hh.symm]

theorem id_step (rid : Option PyPrim) (hm am : Option TeamMeta) :
    (if amendIdEq rid hm then some (metaAbbr hm)
     else if amendIdEq rid am then some (metaAbbr am) else none) =
    (match rid with
     | some v => firstSome (idHit (primStr v) hm) (idHit (primStr v) am)
     | none => none) := by
  rcases rid with _ | v
  · rcases hm with _ | m1 <;> rcases am with _ | m2 <;> rfl
  · rcases hm with _ | m1
    · rcases am with _ | m2
      · rfl
      · by_cases h2 : primStr v = pyStr m2.id <;>
          simp [amendIdEq, idHit, firstSome, metaAbbr, h2]
    · rcases am with _ | m2
      · by_cases h1 : primStr v = pyStr m1.id <;>
          simp [amendIdEq, idHit, firstSome, metaAbbr, h1]
      · by_cases h1 : primStr v = pyStr m1.id
        · simp [amendIdEq, idHit, firstSome, metaAbbr, h1]
        · by_cases h2 : primStr v = pyStr m2.id
          · have hb1 : (primStr v == pyStr m1.id) = false := by simp [h1]
            have hb2 : (primStr v == pyStr m2.id) = true := by simp [h2]
            simp [amendIdEq, idHit, firstSome, metaAbbr, hb1, hb2, h1, if_pos h2]
          · simp [amendIdEq, idHit, firstSome, metaAbbr, h1, h2]

theorem textHit_eq (m? : Option TeamMeta) (desc : List Char) :
    amendTextHit m? desc = metaDescHit m? desc := by
  rcases m? with _ | m
  · rfl
  · rcases h1 : m.abbr with _ | sa <;> rcases h2 : m.short with _ | ss <;>
      rcases h3 : m.name with _ | sn <;>
      simp [amendTextHit, metaDescHit, lowerBlank, lowerL, h1, h2, h3, Bool.or_assoc]

theorem text_step (hm am : Option TeamMeta) (desc : List Char) :
    (if amendTextHit hm desc then some (metaAbbr hm)
     else if amendTextHit am desc then some (metaAbbr am) else none) =
    (if metaDescHit hm desc then
       some (match hm with | some m => m.abbr | none => some "HOME")
     else if metaDescHit am desc then
       some (match am with | some m => m.abbr | none => some "AWAY")
     else none) := by
  rw [textHit_eq hm desc, textHit_eq am desc]
  rcases hm with _ | m1
  · rw [show metaDescHit none desc = false from rfl]
    rcases am with _ | m2
    · rfl
    · simp [metaAbbr]
  · rcases am with _ | m2 <;> simp [metaAbbr] <;>
      rw [show metaDescHit none desc = false from rfl] <;> simp

theorem resolve_team_amended_eq (row : TimelineRow) (hm am : Option TeamMeta) :
    resolve_team_amended row hm am =
      (if amendAbbrEq row.team_abbr hm then metaAbbr hm
       else if amendAbbrEq row.team_abbr am then metaAbbr am
       else if amendIdEq row.team_id hm then metaAbbr hm
       else if amendIdEq row.team_id am then metaAbbr am
       else if amendTextHit hm (lowerL (strOrLit row.description "")) then metaAbbr hm
       else if amendTextHit am (lowerL (strOrLit row.description "")) then metaAbbr am
       else some "Unknown") := rfl

/-- C7 as amended: the resolver applies exactly the first-match-wins
order (a) non-empty row abbreviation equal to the home/away
abbreviation, (b) string rendering of the row's team id equal to the
string rendering of the side's id (an absent id rendering as "None"),
(c) non-empty lowered abbreviation/short-name/full-name substring of
the lowered description, (d) "Unknown". -/
theorem resolve_amended_correct :
    ∀ (row : TimelineRow) (hm am : Option TeamMeta),
      resolve_team_amended row hm am = infer_foul_team row hm am := by
  intro row hm am
  rw [resolve_team_amended_eq, infer_foul_team_eq, chain6]
  rw [abbr_step, id_step, text_step]

end NRT
